import Mathlib

/-!
Verification development for the Spotter HTTP load-generation tool
(src/Spotter.go). The Go source is shallowly embedded: every definition
below is translated from the corresponding Go function or statement, with
machine integers modelled as Int (with explicit two's-complement wrapping
where overflow matters), fallible operations as Option, and the network as
an explicit parameter describing each attempt's exchange result.
-/

namespace Spotter

/-- Go strings in the URL and header models are lists of characters, so the
byte-level splitting of strings.Split and the prefix tests are explicit. -/
abbrev Str := List Char

/-- The result of reading a response body: ioutil.ReadAll either returns the
full body or fails with an error message. -/
inductive BodyRead where
  | ok (body : String)
  | fail (errMsg : String)
deriving DecidableEq, Repr

/-- The result of one call to conf.client.Do: either a transport-level error
(DNS, connect, TLS, timeout, redirect-limit) or a response carrying a status
code and a body read result. -/
inductive ExchangeResult where
  | netErr (errMsg : String)
  | response (statusCode : Int) (body : BodyRead)
deriving DecidableEq, Repr

/-- struct Output in Spotter.go: the classification of one request attempt,
a category string ("net", "bad" or "succ") and the response body or error
text. -/
structure Output where
  category : String
  respBody : String
deriving DecidableEq, Repr

/-- crunchRequest (Spotter.go lines 602-622): classify one attempt.
A client.Do error yields category "net" with the error text; a body read
failure after a successful exchange yields "bad" with the error text;
otherwise status codes with 200 <= code < 300 yield "succ" and every other
status yields "bad", the payload being the body text in both cases. -/
def crunchRequest : ExchangeResult → Output
  | .netErr e => { category := "net", respBody := e }
  | .response statusCode b =>
    match b with
    | .fail e => { category := "bad", respBody := e }
    | .ok body =>
      if 200 ≤ statusCode ∧ statusCode < 300 then
        { category := "succ", respBody := body }
      else
        { category := "bad", respBody := body }

/-- bench (Spotter.go lines 588-594): one worker's loop. It runs exactly
`quota` sequential iterations (for i := 1; i <= conf.requests; i++), each
sending the Output of one crunchRequest call into the result sink,
unconditionally: no branch exits the loop early on failure. The network's
behaviour on the worker's i-th attempt is the parameter `exchanges i`. -/
def bench (quota : Nat) (exchanges : Nat → ExchangeResult) : List Output :=
  (List.range quota).map (fun i => crunchRequest (exchanges i))

/-- The multiset of outcomes all `clients` workers push into the shared
sink, worker by worker (main lines 524-528 spawns `clients` copies of bench
over one shared Configuration); the channel may interleave them in any
order, which the theorems quantify over via permutations. -/
def allOutputs (clients quota : Nat) (ex : Nat → Nat → ExchangeResult) : List Output :=
  ((List.range clients).map (fun w => bench quota (ex w))).flatten

/-- The aggregation state of main's drain loop (Spotter.go lines 530-555):
the four counters and the three categorized body lists of ResultFile. -/
structure DrainState where
  total : Nat
  netFailed : Nat
  badFailed : Nat
  succ : Nat
  fileNet : List String
  fileBad : List String
  fileSucc : List String
deriving DecidableEq, Repr

/-- One iteration of the drain loop (lines 542-555): the switch on
output.category increments the matching counter and appends the body to the
matching ResultFile list (a category outside the three cases matches no
case and updates no counter), and total++ runs after the switch on every
iteration. -/
def drainStep (st : DrainState) (o : Output) : DrainState :=
  let st1 :=
    if o.category = "net" then
      { st with netFailed := st.netFailed + 1, fileNet := st.fileNet ++ [o.respBody] }
    else if o.category = "bad" then
      { st with badFailed := st.badFailed + 1, fileBad := st.fileBad ++ [o.respBody] }
    else if o.category = "succ" then
      { st with succ := st.succ + 1, fileSucc := st.fileSucc ++ [o.respBody] }
    else st
  { st1 with total := st1.total + 1 }

/-- main initialises total, netFailed, badFailed, succ to 0 and file to an
empty ResultFile before draining (lines 530-534). -/
def initialDrainState : DrainState :=
  { total := 0, netFailed := 0, badFailed := 0, succ := 0
    fileNet := [], fileBad := [], fileSucc := [] }

/-- The full drain of the closed channel: fold the loop body over the
outcomes in whatever order the channel yields them. -/
def drain (outs : List Output) : DrainState :=
  outs.foldl drainStep initialDrainState

end Spotter

namespace Spotter

/-- The three possible answers of the CheckRedirect callback: return
http.ErrUseLastResponse (stop following, hand back the last response),
return a non-nil error (abort the whole exchange), or return nil
(follow the redirect). -/
inductive RedirectDecision where
  | useLastResponse
  | abortChain (msg : String)
  | follow
deriving DecidableEq, Repr

/-- httpClient.CheckRedirect (Spotter.go lines 504-513): with the
`redirects` flag and the length of reqList (the requests issued so far for
this attempt, the original included), return ErrUseLastResponse when
redirects == -1, an error when len(reqList) > redirects, and nil
otherwise. -/
def checkRedirect (redirects : Int) (viaLen : Nat) : RedirectDecision :=
  if redirects = -1 then .useLastResponse
  else if (viaLen : Int) > redirects then
    .abortChain ("[SPOTTER]: Followed " ++ toString redirects ++ " redirects. Stopping...")
  else .follow

/-- One attempt's server-side behaviour: the redirect responses the server
would answer in order (status code and body of each), then the final
non-redirect response. -/
structure ServerBehavior where
  chain : List (Int × BodyRead)
  finalStatus : Int
  finalBody : BodyRead
deriving DecidableEq, Repr

/-- The redirect-following loop of net/http's Client.Do under the
CheckRedirect callback above: before following each redirect response it
consults checkRedirect with the number of requests issued so far
(`viaLen`, 1 for the original request); ErrUseLastResponse returns the
redirect response itself with no error, an error aborts the exchange as a
transport error, nil issues the next request. -/
def followChain (redirects : Int) (viaLen : Nat) (chain : List (Int × BodyRead))
    (finalStatus : Int) (finalBody : BodyRead) : ExchangeResult :=
  match chain with
  | [] => .response finalStatus finalBody
  | (s, b) :: rest =>
    match checkRedirect redirects viaLen with
    | .useLastResponse => .response s b
    | .abortChain msg => .netErr msg
    | .follow => followChain redirects (viaLen + 1) rest finalStatus finalBody

/-- conf.client.Do for one attempt against a server behaviour: the loop
starts with the original request already issued (viaLen = 1). -/
def clientDo (redirects : Int) (srv : ServerBehavior) : ExchangeResult :=
  followChain redirects 1 srv.chain srv.finalStatus srv.finalBody

/-- The Output crunchRequest emits for one attempt under the redirect
policy: classify whatever clientDo hands back. -/
def attemptOutcome (redirects : Int) (srv : ServerBehavior) : Output :=
  crunchRequest (clientDo redirects srv)

/-- strings.Contains(uri, "://"): true when the scheme separator occurs
anywhere in the string. -/
def hasSchemeSep : Str → Bool
  | ':' :: '/' :: '/' :: _ => true
  | _ :: rest => hasSchemeSep rest
  | [] => false

/-- strings.HasPrefix(uri, "//"). -/
def startsWithSlashSlash (s : Str) : Bool := s.take 2 == ['/', '/']

/-- A parsed URL as checkURL uses it: scheme, host and path. -/
structure URL where
  scheme : Str
  host : Str
  path : Str
deriving DecidableEq, Repr

/-- The authority/path split of net/url: the host runs to the first '/',
the path is the remainder starting at that '/'. -/
def splitHostPath : Str → Str × Str
  | [] => ([], [])
  | '/' :: rest => ([], '/' :: rest)
  | c :: rest =>
    let hp := splitHostPath rest
    (c :: hp.1, hp.2)

/-- Split at the first "://", giving the prefix before it and the suffix
after it. -/
def splitSchemeSep : Str → Option (Str × Str)
  | ':' :: '/' :: '/' :: rest => some ([], rest)
  | c :: rest =>
    match splitSchemeSep rest with
    | some pr => some (c :: pr.1, pr.2)
    | none => none
  | [] => none

/-- Models the success path of net/url.Parse on the shapes the URL builders
feed it: a string starting with "//" parses as a schemeless URL whose
authority follows, a string with a "://" separator parses with the prefix
as scheme, and anything else is a bare path with no scheme and no host.
url.Parse's error path (invalid port, control characters) is not modelled:
both builders abort the program on a parse error, and the theorems below
evaluate this model only at concrete inputs on which url.Parse succeeds. -/
def parseURL (s : Str) : URL :=
  match s with
  | '/' :: '/' :: rest =>
    let hp := splitHostPath rest
    { scheme := [], host := hp.1, path := hp.2 }
  | _ =>
    match splitSchemeSep s with
    | some pr =>
      let hp := splitHostPath pr.2
      { scheme := pr.1, host := hp.1, path := hp.2 }
    | none => { scheme := [], host := [], path := s }

/-- checkURL (Spotter.go lines 242-258, the pre-separator legacy builder,
not called by the current engine): when the input has no "://" and no
leading "//", prefix "//" so it parses as a schemeless URL; after parsing,
when no scheme is present, default the scheme to http. -/
def checkURL (uri : Str) : URL :=
  let uri2 := if !hasSchemeSep uri && !startsWithSlashSlash uri then '/' :: '/' :: uri else uri
  let u := parseURL uri2
  if u.scheme = [] then { u with scheme := "http".toList } else u

/-- The URL normalization of the current engine's main (Spotter.go lines
445-455): when the input has no "://" and no leading "//", prefix "//",
then parse — and nothing more. No scheme defaulting follows the parse: a
schemeless input keeps scheme "" in the request URL. -/
def mainNormalizeURL (uri : Str) : URL :=
  let uri2 := if !hasSchemeSep uri && !startsWithSlashSlash uri then '/' :: '/' :: uri else uri
  parseURL uri2

/-- strings.Split(header, ":") for the single-character separator ':' as
extractHeaderKV calls it: the maximal runs between ':' occurrences, one
more piece than there are separators. -/
def splitOnColon : Str → List Str
  | [] => [[]]
  | c :: rest =>
    match splitOnColon rest with
    | [] => [[]]
    | y :: ys => if c = ':' then [] :: y :: ys else (c :: y) :: ys

/-- The number of ':' characters in a header entry. -/
def colonCount (s : Str) : Nat := s.count ':'

/-- extractHeaderKV (Spotter.go lines 666-673): split the entry on ':';
any piece count other than exactly 2 is a fatal startup error
(log.Fatalf, modelled as none); otherwise the pair is
(splitHeader[0], splitHeader[1]). -/
def extractHeaderKV (header : Str) : Option (Str × Str) :=
  match splitOnColon header with
  | [k, v] => some (k, v)
  | _ => none

/-- The header loop of createHttpRequest (Spotter.go lines 681-684): each
entry is split by extractHeaderKV and added to the request in order; the
first malformed entry aborts startup (none), before any request is
sent. -/
def createHttpRequestHeaders : List Str → Option (List (Str × Str))
  | [] => some []
  | h :: rest =>
    match extractHeaderKV h with
    | none => none
    | some kv =>
      match createHttpRequestHeaders rest with
      | none => none
      | some pairs => some (kv :: pairs)

/-- A single-pass body stream: the bytes of the source and how far it has
been consumed. strings.NewReader and an opened os.File both behave this
way: reading returns the bytes from the current position and leaves the
position at the end. -/
structure BodyStream where
  data : Str
  pos : Nat
deriving DecidableEq, Repr

/-- Reading the stream to its end: everything from the current position,
after which the stream is exhausted. -/
def readAll (s : BodyStream) : Str × BodyStream :=
  (s.data.drop s.pos, { s with pos := s.data.length })

/-- createHttpBody (Spotter.go lines 629-640) for a literal body: one fresh
strings.NewReader over the body text. It is called exactly once, inside
createHttpRequest at startup; the single resulting stream is owned by the
one shared http.Request. -/
def createHttpBody (body : Str) : BodyStream := { data := body, pos := 0 }

/-- The bodies successive attempts send through the one shared request:
each attempt reads the shared stream from wherever the previous attempt
left it (conf.request is the same *http.Request on every crunchRequest
call, so its body stream is never re-created between attempts). -/
def sendAttempts : Nat → BodyStream → List Str
  | 0, _ => []
  | n + 1, s => (readAll s).1 :: sendAttempts n (readAll s).2

/-- Two's-complement wrapping of an unbounded integer into int64, the type
of requests * int64(clients). -/
def int64wrap (x : Int) : Int := (x + 2 ^ 63) % 2 ^ 64 - 2 ^ 63

/-- The capacity of the result sink (Spotter.go line 515):
make(chan *Output, requests*int64(clients)). -/
def sinkCapacity (requests clients : Int) : Int := int64wrap (requests * clients)

/-- tls.Config as the transport uses it. -/
structure TLSConfig where
  insecureSkipVerify : Bool
deriving DecidableEq, Repr

/-- The fields of the http.Transport main constructs (Spotter.go lines
491-498), durations in nanoseconds. -/
structure Transport where
  proxyFromEnvironment : Bool
  dialKeepAliveNanos : Int
  dialTimeoutNanos : Int
  responseHeaderTimeoutNanos : Int
  tlsClientConfig : TLSConfig
  tlsHandshakeTimeoutNanos : Int
  maxIdleConnsPerHost : Int
deriving DecidableEq, Repr

/-- The command-line configuration the run starts from (the flag-bound
globals of Spotter.go). -/
structure Config where
  requests : Int
  clients : Int
  requestMethod : String
  requestBody : String
  outputFile : String
  requestHeaders : List Str
  requestTimeoutNanos : Int
  redirects : Int
deriving Repr

/-- defaultTLSConfig (Spotter.go lines 481-483): certificate verification
is disabled by the literal InsecureSkipVerify: true; no configuration
input reaches this value. -/
def defaultTLSConfig : TLSConfig := { insecureSkipVerify := true }

/-- The http.Transport main builds (Spotter.go lines 485-498): the dialer
timeout and response-header timeout come from the reqTimeout flag, every
other field is a literal, and the TLS configuration is defaultTLSConfig. -/
def buildTransport (cfg : Config) : Transport :=
  { proxyFromEnvironment := true
    dialKeepAliveNanos := 30 * 1000000000
    dialTimeoutNanos := cfg.requestTimeoutNanos
    responseHeaderTimeoutNanos := cfg.requestTimeoutNanos
    tlsClientConfig := defaultTLSConfig
    tlsHandshakeTimeoutNanos := 10 * 1000000000
    maxIdleConnsPerHost := 10000 }

/-- Claim C6: for every attempt whose transport exchange succeeds but whose
response-body read fails, crunchRequest returns category "bad" with the
error description as payload — never "succ" and never "net". -/
theorem c6_body_read_failure_is_bad (statusCode : Int) (e : String) :
    crunchRequest (.response statusCode (.fail e)) = { category := "bad", respBody := e } ∧
    (crunchRequest (.response statusCode (.fail e))).category ≠ "succ" ∧
    (crunchRequest (.response statusCode (.fail e))).category ≠ "net" := by
  refine ⟨rfl, ?_, ?_⟩ <;> simp [crunchRequest]

/-- Claim C2: for every completed exchange whose body reads successfully,
the outcome is "succ" exactly when the status code lies in 200..299, and
"bad" for every other status code; the classification does not depend on
the body content. -/
theorem c2_status_classification (statusCode : Int) (body other : String) :
    ((crunchRequest (.response statusCode (.ok body))).category = "succ" ↔
      200 ≤ statusCode ∧ statusCode ≤ 299) ∧
    ((crunchRequest (.response statusCode (.ok body))).category = "bad" ↔
      ¬(200 ≤ statusCode ∧ statusCode ≤ 299)) ∧
    (crunchRequest (.response statusCode (.ok body))).category =
      (crunchRequest (.response statusCode (.ok other))).category := by
  have hiff : (200 ≤ statusCode ∧ statusCode < 300) ↔ (200 ≤ statusCode ∧ statusCode ≤ 299) := by
    omega
  by_cases h : 200 ≤ statusCode ∧ statusCode < 300
  · simp [crunchRequest, h, hiff.mp h]
  · simp only [crunchRequest, if_neg h]
    refine ⟨by simp; omega, by simp; omega, by simp⟩

/-- One bench worker emits exactly one Output per loop iteration, so its
outcome list has length equal to its quota. -/
theorem bench_length (quota : Nat) (ex : Nat → ExchangeResult) :
    (bench quota ex).length = quota := by
  simp [bench]

/-- The outcomes of all workers together number clients * quota. -/
theorem allOutputs_length (clients quota : Nat) (ex : Nat → Nat → ExchangeResult) :
    (allOutputs clients quota ex).length = clients * quota := by
  induction clients with
  | zero => simp [allOutputs]
  | succ n ih =>
    simp only [allOutputs, List.range_succ, List.map_append, List.flatten_append,
      List.length_append] at *
    simp [ih, bench_length, Nat.succ_mul]

/-- Claim C1: with clients >= 1 and requests >= 1, each worker performs
exactly its quota of attempts emitting one Outcome per attempt (whatever
each attempt's exchange result is, failures included), and the orchestrator
drains exactly clients * requests outcomes, in whatever order the channel
interleaved them. -/
theorem c1_quota_and_total (clients quota : Nat) (ex : Nat → Nat → ExchangeResult)
    (_hc : 1 ≤ clients) (_hq : 1 ≤ quota) :
    (∀ w, (bench quota (ex w)).length = quota) ∧
    ∀ drained : List Output, drained.Perm (allOutputs clients quota ex) →
      drained.length = clients * quota := by
  refine ⟨fun w => bench_length quota (ex w), fun drained hperm => ?_⟩
  rw [hperm.length_eq, allOutputs_length]

/-- Concrete instance of C1: 2 clients, 3 requests per client, every
attempt a network failure; 6 outcomes are drained. -/
theorem c1_quota_and_total_witness :
    1 ≤ 2 ∧ 1 ≤ 3 ∧ (allOutputs 2 3 (fun _ _ => .netErr "x")).length = 2 * 3 :=
  ⟨by decide, by decide,
    (c1_quota_and_total 2 3 _ (by decide) (by decide)).2 _ (List.Perm.refl _)⟩

/-- The drain loop body preserves the counter partition whenever the drained
Output's category is one of the three produced categories. -/
theorem drainStep_sum (st : DrainState) (o : Output)
    (ho : o.category = "net" ∨ o.category = "bad" ∨ o.category = "succ")
    (hst : st.succ + st.badFailed + st.netFailed = st.total) :
    (drainStep st o).succ + (drainStep st o).badFailed + (drainStep st o).netFailed
      = (drainStep st o).total := by
  rcases ho with h | h | h <;> simp [drainStep, h] <;> omega

/-- Folding the drain loop over outcomes with well-formed categories keeps
succ + badFailed + netFailed = total from any state satisfying it. -/
theorem drain_foldl_sum (outs : List Output) :
    ∀ st : DrainState,
      (∀ o ∈ outs, o.category = "net" ∨ o.category = "bad" ∨ o.category = "succ") →
      st.succ + st.badFailed + st.netFailed = st.total →
      (outs.foldl drainStep st).succ + (outs.foldl drainStep st).badFailed +
        (outs.foldl drainStep st).netFailed = (outs.foldl drainStep st).total := by
  induction outs with
  | nil => intro st _ h; simpa using h
  | cons o rest ih =>
    intro st hall hst
    simp only [List.foldl_cons]
    exact ih _ (fun x hx => hall x (List.mem_cons_of_mem _ hx))
      (drainStep_sum st o (hall o (List.mem_cons_self _ _)) hst)

/-- Claim C8: every Outcome crunchRequest produces carries a category in
the set, and draining any list of such outcomes — in any enqueue order —
yields counters with successCount + badFailedCount + networkFailedCount =
totalCount. -/
theorem c8_category_partition :
    (∀ r : ExchangeResult, (crunchRequest r).category = "net" ∨
      (crunchRequest r).category = "bad" ∨ (crunchRequest r).category = "succ") ∧
    ∀ outs : List Output,
      (∀ o ∈ outs, o.category = "net" ∨ o.category = "bad" ∨ o.category = "succ") →
      (drain outs).succ + (drain outs).badFailed + (drain outs).netFailed
        = (drain outs).total := by
  constructor
  · intro r
    match r with
    | .netErr e => simp [crunchRequest]
    | .response s (.fail e) => simp [crunchRequest]
    | .response s (.ok b) =>
      by_cases h : 200 ≤ s ∧ s < 300 <;> simp [crunchRequest, h]
  · intro outs hall
    exact drain_foldl_sum outs initialDrainState hall rfl

/-- Concrete instance of C8: draining one outcome of each category gives
1 + 1 + 1 = 3. -/
theorem c8_category_partition_witness :
    (drain [⟨"net", "a"⟩, ⟨"succ", "b"⟩, ⟨"bad", "c"⟩]).succ +
      (drain [⟨"net", "a"⟩, ⟨"succ", "b"⟩, ⟨"bad", "c"⟩]).badFailed +
      (drain [⟨"net", "a"⟩, ⟨"succ", "b"⟩, ⟨"bad", "c"⟩]).netFailed
      = (drain [⟨"net", "a"⟩, ⟨"succ", "b"⟩, ⟨"bad", "c"⟩]).total :=
  c8_category_partition.2 _ (by decide)

/-- With redirects = N >= 0, as long as the redirects already issued leave
the count within the limit, the loop follows every redirect of the chain
and returns the final response. -/
theorem followChain_resolve (chain : List (Int × BodyRead)) :
    ∀ (viaLen : Nat) (N : Int) (fs : Int) (fb : BodyRead), 0 ≤ N →
      (viaLen : Int) + chain.length ≤ N + 1 →
      followChain N viaLen chain fs fb = .response fs fb := by
  induction chain with
  | nil => intro viaLen N fs fb _ _; rfl
  | cons hd rest ih =>
    intro viaLen N fs fb hN hle
    obtain ⟨s, b⟩ := hd
    have hne : ¬N = -1 := by omega
    have hcnt : ¬((viaLen : Int) > N) := by
      simp only [List.length_cons] at hle
      push_cast at hle
      omega
    simp only [followChain, checkRedirect, if_neg hne, if_neg hcnt]
    apply ih
    · exact hN
    · simp only [List.length_cons] at hle
      push_cast at hle ⊢
      omega

/-- With redirects = N >= 0, a chain that still holds exactly one more
redirect than the limit allows ends in CheckRedirect's error, surfaced by
Client.Do as a transport error. -/
theorem followChain_abort (chain : List (Int × BodyRead)) :
    ∀ (viaLen : Nat) (N : Int) (fs : Int) (fb : BodyRead), 0 ≤ N →
      1 ≤ viaLen → (viaLen : Int) ≤ N + 1 →
      (viaLen : Int) + chain.length = N + 2 →
      ∃ msg, followChain N viaLen chain fs fb = .netErr msg := by
  induction chain with
  | nil =>
    intro viaLen N fs fb _ _ hle hsum
    simp only [List.length_nil] at hsum
    omega
  | cons hd rest ih =>
    intro viaLen N fs fb hN h1 hle hsum
    obtain ⟨s, b⟩ := hd
    have hne : ¬N = -1 := by omega
    by_cases hcnt : (viaLen : Int) > N
    · exact ⟨"[SPOTTER]: Followed " ++ toString N ++ " redirects. Stopping...",
        by simp only [followChain, checkRedirect, if_neg hne, if_pos hcnt]⟩
    · simp only [followChain, checkRedirect, if_neg hne, if_neg hcnt]
      apply ih
      · exact hN
      · omega
      · push_cast
        omega
      · simp only [List.length_cons] at hsum
        push_cast at hsum ⊢
        omega

/-- Claim C3: the redirect policy. With redirects = -1 no redirect is ever
followed: the attempt resolves to the first response received (the first
redirect response when the chain is non-empty, otherwise the final
response), classified by its own status code. With redirects = N >= 0 a
chain of at most N redirects resolves to the final response's own
classification, and a chain of exactly N + 1 redirects aborts the attempt
with a network-category outcome. -/
theorem c3_redirect_policy :
    (∀ srv : ServerBehavior, srv.chain = [] →
      attemptOutcome (-1) srv = crunchRequest (.response srv.finalStatus srv.finalBody)) ∧
    (∀ (srv : ServerBehavior) (s : Int) (b : BodyRead) rest, srv.chain = (s, b) :: rest →
      attemptOutcome (-1) srv = crunchRequest (.response s b)) ∧
    (∀ N : Int, 0 ≤ N → ∀ srv : ServerBehavior, (srv.chain.length : Int) ≤ N →
      clientDo N srv = .response srv.finalStatus srv.finalBody) ∧
    (∀ N : Int, 0 ≤ N → ∀ srv : ServerBehavior, (srv.chain.length : Int) = N + 1 →
      (attemptOutcome N srv).category = "net") := by
  refine ⟨?_, ?_, ?_, ?_⟩
  · intro srv hchain
    simp [attemptOutcome, clientDo, hchain, followChain]
  · intro srv s b rest hchain
    simp [attemptOutcome, clientDo, hchain, followChain, checkRedirect]
  · intro N hN srv hlen
    apply followChain_resolve
    · exact hN
    · push_cast
      omega
  · intro N hN srv hlen
    obtain ⟨msg, hmsg⟩ := followChain_abort srv.chain 1 N srv.finalStatus srv.finalBody hN
      (le_refl 1) (by omega) (by push_cast; omega)
    simp [attemptOutcome, clientDo, hmsg, crunchRequest]

/-- Concrete instance of C3: redirects = 1 and a chain of 2 redirects gives
a network-category outcome. -/
theorem c3_redirect_policy_witness :
    (attemptOutcome 1 ⟨[(301, .ok "a"), (302, .ok "b")], 200, .ok "done"⟩).category = "net" :=
  c3_redirect_policy.2.2.2 1 (by decide)
    ⟨[(301, .ok "a"), (302, .ok "b")], 200, .ok "done"⟩ (by decide)

/-- Claim C5 (refuting evaluation): on the claim's own example
example.com/path, the current engine's normalization prefixes "//" so the
input parses as a schemeless URL with host example.com and path /path, but
leaves the scheme empty — it never defaults to http, so every subsequent
client.Do fails on the unsupported empty scheme. The legacy checkURL,
which the current engine does not call, did apply the http default the
claim describes. -/
theorem c5_scheme_not_defaulted :
    mainNormalizeURL ("example.com/path".toList) =
      { scheme := [], host := "example.com".toList, path := "/path".toList } ∧
    (mainNormalizeURL ("example.com/path".toList)).scheme ≠ "http".toList ∧
    (checkURL ("example.com/path".toList)).scheme = "http".toList := by
  refine ⟨by decide, by decide, by decide⟩

/-- strings.Split never returns an empty slice. -/
theorem splitOnColon_ne_nil (s : Str) : splitOnColon s ≠ [] := by
  induction s with
  | nil => simp [splitOnColon]
  | cons c rest ih =>
    cases h : splitOnColon rest with
    | nil => exact absurd h ih
    | cons y ys =>
      simp only [splitOnColon, h]
      by_cases hc : c = ':' <;> simp [hc]

/-- The number of pieces strings.Split returns is one more than the number
of separators in the entry. -/
theorem splitOnColon_length (s : Str) : (splitOnColon s).length = colonCount s + 1 := by
  induction s with
  | nil => simp [splitOnColon, colonCount]
  | cons c rest ih =>
    cases h : splitOnColon rest with
    | nil => exact absurd h (splitOnColon_ne_nil rest)
    | cons y ys =>
      rw [h] at ih
      by_cases hc : c = ':'
      · have hcc : colonCount (c :: rest) = colonCount rest + 1 := by
          simp [colonCount, List.count_cons, hc]
        simp only [splitOnColon, h, if_pos hc, List.length_cons, hcc]
        simp only [List.length_cons] at ih
        omega
      · have hcc : colonCount (c :: rest) = colonCount rest := by
          simp [colonCount, List.count_cons, hc]
        simp only [splitOnColon, h, if_neg hc, List.length_cons, hcc]
        simp only [List.length_cons] at ih
        omega

/-- A one-piece split means the entry had no separator and is its own
single piece. -/
theorem splitOnColon_singleton (s : Str) : ∀ y, splitOnColon s = [y] → s = y := by
  induction s with
  | nil =>
    intro y h
    simp only [splitOnColon] at h
    injection h with h1 h2
  | cons c rest ih =>
    intro y h
    cases hr : splitOnColon rest with
    | nil => exact absurd hr (splitOnColon_ne_nil rest)
    | cons z zs =>
      by_cases hc : c = ':'
      · simp [splitOnColon, hr, hc] at h
      · simp only [splitOnColon, hr, if_neg hc] at h
        injection h with h1 h2
        rw [h2] at hr
        rw [← h1, ih z hr]

/-- A two-piece split reconstructs the entry as key ++ ":" ++ value. -/
theorem splitOnColon_pair (s : Str) : ∀ k v, splitOnColon s = [k, v] → s = k ++ ':' :: v := by
  induction s with
  | nil => intro k v h; simp [splitOnColon] at h
  | cons c rest ih =>
    intro k v h
    cases hr : splitOnColon rest with
    | nil => exact absurd hr (splitOnColon_ne_nil rest)
    | cons z zs =>
      by_cases hc : c = ':'
      · simp only [splitOnColon, hr, if_pos hc] at h
        injection h with h1 h2
        injection h2 with h3 h4
        rw [h4] at hr
        rw [h3] at hr
        rw [← h1, hc, splitOnColon_singleton rest v hr]
        rfl
      · simp only [splitOnColon, hr, if_neg hc] at h
        injection h with h1 h2
        rw [h2] at hr
        rw [← h1]
        rw [ih z v hr]
        rfl

/-- extractHeaderKV rejects an entry exactly when its split does not have
exactly two pieces. -/
theorem extractHeaderKV_none_iff (h : Str) :
    extractHeaderKV h = none ↔ (splitOnColon h).length ≠ 2 := by
  unfold extractHeaderKV
  cases hsp : splitOnColon h with
  | nil => exact absurd hsp (splitOnColon_ne_nil h)
  | cons a t =>
    cases t with
    | nil => simp
    | cons b t2 =>
      cases t2 with
      | nil => simp
      | cons d t3 => simp

/-- An accepted entry yields exactly the two pieces of its split. -/
theorem extractHeaderKV_some (h k v : Str) (hs : extractHeaderKV h = some (k, v)) :
    splitOnColon h = [k, v] := by
  revert hs
  unfold extractHeaderKV
  cases hsp : splitOnColon h with
  | nil => exact absurd hsp (splitOnColon_ne_nil h)
  | cons a t =>
    cases t with
    | nil => intro hs; exact absurd hs (by simp)
    | cons b t2 =>
      cases t2 with
      | nil =>
        intro hs
        simp only [Option.some.injEq, Prod.mk.injEq] at hs
        rw [hs.1, hs.2]
      | cons d t3 => intro hs; exact absurd hs (by simp)

/-- One malformed entry anywhere in the header list aborts the whole
request construction. -/
theorem createHttpRequestHeaders_abort (pre : List Str) (h : Str) (post : List Str)
    (hnone : extractHeaderKV h = none) :
    createHttpRequestHeaders (pre ++ h :: post) = none := by
  induction pre with
  | nil => simp [createHttpRequestHeaders, hnone]
  | cons p rest ih =>
    simp only [List.cons_append, createHttpRequestHeaders]
    cases hkv : extractHeaderKV p with
    | none => simp [hkv]
    | some kv => simp [hkv, ih]

/-- A successful request construction splits every entry, in order. -/
theorem createHttpRequestHeaders_forall2 (hs : List Str) :
    ∀ pairs, createHttpRequestHeaders hs = some pairs →
      List.Forall₂ (fun (h : Str) (kv : Str × Str) => extractHeaderKV h = some kv) hs pairs := by
  induction hs with
  | nil =>
    intro pairs hp
    simp only [createHttpRequestHeaders, Option.some.injEq] at hp
    rw [← hp]
    exact List.Forall₂.nil
  | cons h rest ih =>
    intro pairs hp
    simp only [createHttpRequestHeaders] at hp
    cases hkv : extractHeaderKV h with
    | none => rw [hkv] at hp; simp at hp
    | some kv =>
      rw [hkv] at hp
      cases hrec : createHttpRequestHeaders rest with
      | none => rw [hrec] at hp; simp at hp
      | some ps =>
        rw [hrec] at hp
        simp only [Option.some.injEq] at hp
        rw [← hp]
        exact List.Forall₂.cons hkv (ih ps hrec)

/-- Claim C7: a header entry is rejected exactly when it does not contain a
single ':' separator — so "X-Foo" (no colon) and "a:b:c" (two colons) are
fatal configuration errors aborting startup before any request exists —
one malformed entry anywhere aborts the whole construction, and well-formed
entries are added as their key/value pieces unchanged (the pieces
reconstruct the entry exactly). -/
theorem c7_header_validation :
    (∀ h : Str, extractHeaderKV h = none ↔ colonCount h ≠ 1) ∧
    (∀ h k v : Str, extractHeaderKV h = some (k, v) → h = k ++ ':' :: v) ∧
    (∀ (pre : List Str) (h : Str) (post : List Str), extractHeaderKV h = none →
      createHttpRequestHeaders (pre ++ h :: post) = none) ∧
    (∀ (hs : List Str) (pairs : List (Str × Str)), createHttpRequestHeaders hs = some pairs →
      List.Forall₂ (fun (h : Str) (kv : Str × Str) => extractHeaderKV h = some kv) hs pairs) ∧
    extractHeaderKV ("X-Foo".toList) = none ∧
    extractHeaderKV ("a:b:c".toList) = none := by
  refine ⟨?_, ?_, createHttpRequestHeaders_abort, createHttpRequestHeaders_forall2,
    by decide, by decide⟩
  · intro h
    rw [extractHeaderKV_none_iff, splitOnColon_length]
    omega
  · intro h k v hs
    exact splitOnColon_pair h k v (extractHeaderKV_some h k v hs)

/-- Claim C4 (refuting evaluation): the code builds one body stream at
startup and shares it across attempts, so with body "hello" the first
attempt sends "hello" and the second attempt sends the empty body — the
exhausted stream is reused, not a fresh one. -/
theorem c4_shared_body_stream_exhausted :
    sendAttempts 2 (createHttpBody ("hello".toList)) = ["hello".toList, []] ∧
    "hello".toList ≠ ([] : Str) := by
  constructor
  · decide
  · decide

/-- int64 wrapping is the identity inside the representable range. -/
theorem int64wrap_of_bounds (x : Int) (h0 : -(2 ^ 63) ≤ x) (h1 : x < 2 ^ 63) :
    int64wrap x = x := by
  unfold int64wrap
  omega

/-- Claim C9: the sink's capacity, fixed at startup, is exactly
requests * clients, which is exactly the number of outcomes ever enqueued
across all workers, so the enqueued count never exceeds the capacity at any
prefix of the run and no send blocks. -/
theorem c9_sink_capacity (clients quota : Nat) (ex : Nat → Nat → ExchangeResult)
    (hbound : (clients : Int) * (quota : Int) < 2 ^ 63) :
    sinkCapacity (quota : Int) (clients : Int) = ((allOutputs clients quota ex).length : Int) ∧
    ∀ k : Nat, (((allOutputs clients quota ex).take k).length : Int) ≤
      sinkCapacity (quota : Int) (clients : Int) := by
  have hlen := allOutputs_length clients quota ex
  have hcap : sinkCapacity (quota : Int) (clients : Int) = (quota : Int) * (clients : Int) := by
    have hq0 : 0 ≤ (quota : Int) * (clients : Int) := by positivity
    have hql : (quota : Int) * (clients : Int) < 2 ^ 63 := by
      rw [mul_comm]; exact hbound
    unfold sinkCapacity
    exact int64wrap_of_bounds _ (by omega) hql
  constructor
  · rw [hcap, hlen]
    push_cast
    ring
  · intro k
    rw [hcap]
    have htake : ((allOutputs clients quota ex).take k).length ≤
        (allOutputs clients quota ex).length := by
      simp [List.length_take]
    rw [hlen] at htake
    have : ((quota : Int) * (clients : Int)) = ((clients * quota : Nat) : Int) := by
      push_cast; ring
    rw [this]
    exact_mod_cast htake

/-- Concrete instance of C9: 2 clients and 3 requests per client give a
sink capacity of exactly the 6 outcomes enqueued. -/
theorem c9_sink_capacity_witness :
    sinkCapacity (3 : Int) (2 : Int) =
      ((allOutputs 2 3 (fun _ _ => .netErr "x")).length : Int) :=
  (c9_sink_capacity 2 3 (fun _ _ => .netErr "x") (by norm_num)).1

/-- Claim C10: for every configuration the transport is built with TLS
certificate verification disabled — InsecureSkipVerify is the literal true
and no input influences it. -/
theorem c10_tls_verification_disabled (cfg : Config) :
    (buildTransport cfg).tlsClientConfig.insecureSkipVerify = true := rfl

end Spotter

